import Mathlib

/-!
Shallow embedding of the PatternAnalysis-2024 `UNet3D_s4803414` recognition
module (files `dataset.py` and `modules.py`) and proofs about the claims of
its specification.

Conventions of the embedding:
* numpy / torch floating-point values are modelled as exact rationals (`ℚ`);
  integer (`int64`) values as `ℤ`.
* A 4-dimensional numpy array is an `Arr4`: a shape together with a total
  index function (entries outside the shape are junk; all statements about
  array contents quantify only over in-bounds indices, matching numpy
  semantics where out-of-bounds entries do not exist).
* The external resampling routines `scipy.ndimage.rotate` / `zoom` are not
  repository code; their *interface* facts used here come from the scipy
  documentation: `rotate(..., reshape=False)` preserves the shape, `zoom`
  produces shape `round(size * factor)` per axis with Python banker's
  rounding, the default spline order of `rotate` is 3, and a `zoom` factor
  sequence whose length differs from the input rank raises an error.  The
  voxel-level interpolation itself is kept abstract as a `Resampler`
  parameter: no claim depends on interpolated values, and every theorem
  quantifies over the resampler.
* Python's ambient `random` module is modelled as an explicit stream
  `rng : ℕ → ℚ` together with a counter for the next draw; `random.random()`
  reads the stream at the counter, `random.uniform a b` is
  `a + (b - a) * random()` as in CPython.
-/

/-- Python `round` on a rational: round half to even (banker's rounding),
used by `scipy.ndimage.zoom` to compute output shapes. -/
def pyRound (q : ℚ) : ℤ :=
  let f : ℤ := ⌊q⌋
  let r : ℚ := q - f
  if r < 1/2 then f
  else if 1/2 < r then f + 1
  else if 2 ∣ f then f else f + 1

/-- Python `round` clamped to `ℕ` (array sizes are non-negative). -/
def pyRoundN (q : ℚ) : ℕ :=
  (pyRound q).toNat

/-- CPython `random.uniform a b` applied to one draw `u` of `random.random()`:
`a + (b - a) * u`. -/
def uniform (a b u : ℚ) : ℚ :=
  a + (b - a) * u

/-- numpy `astype(np.int64)` on one value: truncation toward zero. -/
def pyTrunc (q : ℚ) : ℤ :=
  q.num.tdiv q.den

/-- A 4-dimensional numpy array with entries in `α`: shape
`(s0, s1, s2, s3)` plus a total index function. -/
structure Arr4 (α : Type) where
  shape : ℕ × ℕ × ℕ × ℕ
  data : ℕ → ℕ → ℕ → ℕ → α

/-- `np.flip(t, axis=1)`. -/
def npFlipAx1 {α : Type} (t : Arr4 α) : Arr4 α :=
  ⟨t.shape, fun i j k l => t.data i (t.shape.2.1 - 1 - j) k l⟩

/-- `np.flip(t, axis=2)`. -/
def npFlipAx2 {α : Type} (t : Arr4 α) : Arr4 α :=
  ⟨t.shape, fun i j k l => t.data i j (t.shape.2.2.1 - 1 - k) l⟩

/-- `np.flip(t, axis=3)`. -/
def npFlipAx3 {α : Type} (t : Arr4 α) : Arr4 α :=
  ⟨t.shape, fun i j k l => t.data i j k (t.shape.2.2.2 - 1 - l)⟩

/-- numpy basic slicing `t[:, :s1, :s2, :s3]` on a 4-dimensional array:
axis 0 is kept whole, each sliced axis is truncated to
`min (current size) (stop)`; entries keep their indices (0-origin prefix). -/
def npSlice4 {α : Type} (t : Arr4 α) (s1 s2 s3 : ℕ) : Arr4 α :=
  ⟨(t.shape.1, min t.shape.2.1 s1, min t.shape.2.2.1 s2, min t.shape.2.2.2 s3),
    t.data⟩

/-- The crop `image[:, :256, :256, :128]` used by `MRIDataset` (dataset.py
lines 37-38 and 93-94). -/
def crop4 {α : Type} (t : Arr4 α) : Arr4 α :=
  npSlice4 t 256 256 128

/-- Abstract voxel-level interpolation backend for `scipy.ndimage` on
4-dimensional arrays.  `rotate angle order data` / `zoom factor order data`
give the interpolated entries; every theorem below quantifies over this, so
nothing is assumed about interpolated values. -/
structure Resampler (α : Type) where
  rotate : ℚ → ℕ → (ℕ → ℕ → ℕ → ℕ → α) → (ℕ → ℕ → ℕ → ℕ → α)
  zoom : ℚ → ℕ → (ℕ → ℕ → ℕ → ℕ → α) → (ℕ → ℕ → ℕ → ℕ → α)

/-- `scipy.ndimage.rotate(t, angle, axes=(2, 3), reshape=False, mode='nearest',
order)`: with `reshape=False` the shape is preserved (scipy documentation);
entries come from the interpolation backend. -/
def scipyRotate {α : Type} (R : Resampler α) (t : Arr4 α) (angle : ℚ)
    (order : ℕ) : Arr4 α :=
  ⟨t.shape, R.rotate angle order t.data⟩

/-- Output shape of `scipy.ndimage.zoom(t, (1, z, z, z))` on a 4-dimensional
array: per-axis `round(size * factor)` with Python rounding (scipy
documentation / implementation `int(round(ii * jj))`). -/
def zoomShape (s : ℕ × ℕ × ℕ × ℕ) (z : ℚ) : ℕ × ℕ × ℕ × ℕ :=
  (pyRoundN ((s.1 : ℚ) * 1), pyRoundN ((s.2.1 : ℚ) * z),
    pyRoundN ((s.2.2.1 : ℚ) * z), pyRoundN ((s.2.2.2 : ℚ) * z))

/-- `scipy.ndimage.zoom(t, (1, z, z, z), order)` on a 4-dimensional array. -/
def scipyZoom {α : Type} (R : Resampler α) (t : Arr4 α) (z : ℚ)
    (order : ℕ) : Arr4 α :=
  ⟨zoomShape t.shape z, R.zoom z order t.data⟩

/-- One recorded call to a `scipy.ndimage` resampling routine, with the
target array (image or mask), the parameter (angle or factor) and the spline
order that the source passes (or lets default). -/
inductive SciCall where
  | rotateCall (toMask : Bool) (angle : ℚ) (order : ℕ)
  | zoomCall (toMask : Bool) (factor : ℚ) (order : ℕ)
  deriving DecidableEq

/-- Result of `MRIDataset.apply_augmentation`: the transformed image and
mask, the position of the next unused random draw, and the trace of
`scipy.ndimage` calls that were made. -/
structure AugResult where
  img : Arr4 ℚ
  msk : Arr4 ℤ
  next : ℕ
  trace : List SciCall

/-- The three random-flip steps of `MRIDataset.apply_augmentation`
(dataset.py lines 67-78): flip along axis 3, then axis 2, then axis 1,
each when the corresponding `random.random()` draw (stream positions `k`,
`k+1`, `k+2`) exceeds `0.5`; image and mask are always flipped together. -/
def flipStage (rng : ℕ → ℚ) (k : ℕ) (p : Arr4 ℚ × Arr4 ℤ) :
    Arr4 ℚ × Arr4 ℤ :=
  let p1 : Arr4 ℚ × Arr4 ℤ :=
    if 1/2 < rng k then (npFlipAx3 p.1, npFlipAx3 p.2) else p
  let p2 : Arr4 ℚ × Arr4 ℤ :=
    if 1/2 < rng (k+1) then (npFlipAx2 p1.1, npFlipAx2 p1.2) else p1
  if 1/2 < rng (k+2) then (npFlipAx1 p2.1, npFlipAx1 p2.2) else p2

/-- The random-rotation step of `MRIDataset.apply_augmentation` (dataset.py
lines 80-84): when the draw at `k` exceeds `0.5`, one shared angle
`random.uniform(-30, 30)` is drawn (position `k+1`) and both arrays are
rotated by it — the image call omits `order` (scipy default 3), the mask
call passes `order=0`.  Returns the new pair, the next stream position and
the recorded scipy calls. -/
def rotateStage (Rq : Resampler ℚ) (Rz : Resampler ℤ) (rng : ℕ → ℚ) (k : ℕ)
    (p : Arr4 ℚ × Arr4 ℤ) : (Arr4 ℚ × Arr4 ℤ) × ℕ × List SciCall :=
  if 1/2 < rng k then
    let angle := uniform (-30) 30 (rng (k+1))
    ((scipyRotate Rq p.1 angle 3, scipyRotate Rz p.2 angle 0), k+2,
      [SciCall.rotateCall false angle 3, SciCall.rotateCall true angle 0])
  else (p, k+1, [])

/-- The random-zoom step of `MRIDataset.apply_augmentation` (dataset.py
lines 86-90): when the draw at `k` exceeds `0.5`, one shared factor
`random.uniform(0.9, 1.1)` is drawn (position `k+1`) and both arrays are
zoomed by `(1, z, z, z)` — the image with `order=1`, the mask with
`order=0`. -/
def zoomStage (Rq : Resampler ℚ) (Rz : Resampler ℤ) (rng : ℕ → ℚ) (k : ℕ)
    (p : Arr4 ℚ × Arr4 ℤ) : (Arr4 ℚ × Arr4 ℤ) × ℕ × List SciCall :=
  if 1/2 < rng k then
    let z := uniform (9/10) (11/10) (rng (k+1))
    ((scipyZoom Rq p.1 z 1, scipyZoom Rz p.2 z 0), k+2,
      [SciCall.zoomCall false z 1, SciCall.zoomCall true z 0])
  else (p, k+1, [])

/-- `MRIDataset.apply_augmentation` (dataset.py lines 65-96), on the
4-dimensional `(channel, 256, 256, 128)` arrays its own comments describe.
The five `random.random() > 0.5` decision draws and the two
`random.uniform` parameter draws are read from the stream `rng` starting at
position `k`, in source order (flip axis 3, flip axis 2, flip axis 1,
rotate decision, angle, zoom decision, factor).  Both arrays are finally
re-cropped with `[:, :256, :256, :128]` (lines 92-94; the crop only
truncates, it never pads). -/
def apply_augmentation (Rq : Resampler ℚ) (Rz : Resampler ℤ) (rng : ℕ → ℚ)
    (k : ℕ) (image : Arr4 ℚ) (mask : Arr4 ℤ) : AugResult :=
  let p3 := flipStage rng k (image, mask)
  let s4 := rotateStage Rq Rz rng (k+3) p3
  let s5 := zoomStage Rq Rz rng s4.2.1 s4.1
  ⟨crop4 s5.1.1, crop4 s5.1.2, s5.2.1, s4.2.2 ++ s5.2.2⟩

/-- All in-bounds entries of a 4-dimensional array, as a list (the iteration
order is irrelevant, only membership is used). -/
def arrEntries (t : Arr4 ℚ) : List ℚ :=
  (List.range t.shape.1).flatMap fun i =>
    (List.range t.shape.2.1).flatMap fun j =>
      (List.range t.shape.2.2.1).flatMap fun k =>
        (List.range t.shape.2.2.2).map fun l => t.data i j k l

/-- Minimum of a list of rationals (`ndarray.min()`); `0` for the empty
array, on which numpy would raise instead — every statement below only uses
this on arrays that a hypothesis makes non-empty, or vacuously. -/
def listMin : List ℚ → ℚ
  | [] => 0
  | x :: xs => xs.foldl min x

/-- Maximum of a list of rationals (`ndarray.max()`). -/
def listMax : List ℚ → ℚ
  | [] => 0
  | x :: xs => xs.foldl max x

/-- `image.min()` over the whole volume (dataset.py line 41). -/
def arrMin (t : Arr4 ℚ) : ℚ :=
  listMin (arrEntries t)

/-- `image.max()` over the whole volume (dataset.py line 41). -/
def arrMax (t : Arr4 ℚ) : ℚ :=
  listMax (arrEntries t)

/-- Entry function of the min-max normalization
`(image - image_min) / (image_max - image_min) if image_max != image_min
else image` (dataset.py line 42). -/
def normData (t : Arr4 ℚ) : ℕ → ℕ → ℕ → ℕ → ℚ :=
  if arrMax t = arrMin t then t.data
  else fun i j k l => (t.data i j k l - arrMin t) / (arrMax t - arrMin t)

/-- Min-max normalization of the image volume (dataset.py lines 40-42); the
shape is unchanged in either branch. -/
def normalizeArr (t : Arr4 ℚ) : Arr4 ℚ :=
  ⟨t.shape, normData t⟩

/-- `mask.astype(np.int64)` (dataset.py line 48): elementwise truncation
toward zero. -/
def astypeInt (t : Arr4 ℚ) : Arr4 ℤ :=
  ⟨t.shape, fun i j k l => pyTrunc (t.data i j k l)⟩

/-- `np.clip(mask, 0, None)` (dataset.py line 49): elementwise lower bound
0, no upper bound. -/
def clipNonneg (t : Arr4 ℤ) : Arr4 ℤ :=
  ⟨t.shape, fun i j k l => max (t.data i j k l) 0⟩

/-- The mask value pipeline of `__getitem__` after cropping: cast to int64,
then clip to non-negative (dataset.py lines 47-49). -/
def maskProcess (t : Arr4 ℚ) : Arr4 ℤ :=
  clipNonneg (astypeInt t)

/-- A 5-dimensional numpy array / torch tensor with entries in `α`. -/
structure Arr5 (α : Type) where
  shape : ℕ × ℕ × ℕ × ℕ × ℕ
  data : ℕ → ℕ → ℕ → ℕ → ℕ → α

/-- `np.expand_dims(t, axis=0)` (dataset.py lines 52-53): a new leading axis
of size 1; entry `(b, i, j, k, l)` is entry `(i, j, k, l)` of `t`. -/
def expandDims {α : Type} (t : Arr4 α) : Arr5 α :=
  ⟨(1, t.shape.1, t.shape.2.1, t.shape.2.2.1, t.shape.2.2.2),
    fun _ i j k l => t.data i j k l⟩

/-- `np.flip(t, axis=1)` on a 5-dimensional array. -/
def npFlip5Ax1 {α : Type} (t : Arr5 α) : Arr5 α :=
  ⟨t.shape, fun b i j k l => t.data b (t.shape.2.1 - 1 - i) j k l⟩

/-- `np.flip(t, axis=2)` on a 5-dimensional array. -/
def npFlip5Ax2 {α : Type} (t : Arr5 α) : Arr5 α :=
  ⟨t.shape, fun b i j k l => t.data b i (t.shape.2.2.1 - 1 - j) k l⟩

/-- `np.flip(t, axis=3)` on a 5-dimensional array. -/
def npFlip5Ax3 {α : Type} (t : Arr5 α) : Arr5 α :=
  ⟨t.shape, fun b i j k l => t.data b i j (t.shape.2.2.2.1 - 1 - k) l⟩

/-- Abstract interpolation backend for `scipy.ndimage.rotate` on
5-dimensional arrays (a `zoom` field is not needed: on a 5-dimensional
input the source's length-4 factor tuple makes `scipy.ndimage.zoom` raise
before any interpolation happens). -/
structure Resampler5 (α : Type) where
  rotate : ℚ → ℕ → (ℕ → ℕ → ℕ → ℕ → ℕ → α) → (ℕ → ℕ → ℕ → ℕ → ℕ → α)

/-- `scipy.ndimage.rotate(t, angle, axes=(2, 3), reshape=False, ...)` on a
5-dimensional array: shape preserved. -/
def scipyRotate5 {α : Type} (R : Resampler5 α) (t : Arr5 α) (angle : ℚ)
    (order : ℕ) : Arr5 α :=
  ⟨t.shape, R.rotate angle order t.data⟩

/-- numpy slicing `t[:, :s1, :s2, :s3]` on a 5-dimensional array: the four
index expressions hit axes 0-3, axis 4 is untouched. -/
def npSlice5of4 {α : Type} (t : Arr5 α) (s1 s2 s3 : ℕ) : Arr5 α :=
  ⟨(t.shape.1, min t.shape.2.1 s1, min t.shape.2.2.1 s2,
      min t.shape.2.2.2.1 s3, t.shape.2.2.2.2), t.data⟩

/-- `MRIDataset.apply_augmentation` as it actually executes inside
`__getitem__` on the 5-dimensional post-`expand_dims` arrays: the literal
axis numbers 3, 2, 1 and the rotation axes (2, 3) now address different
dimensions than the function's own comments assume, and the zoom branch
raises (`none`) because the length-4 factor tuple `(1, z, z, z)` does not
match the rank-5 input. -/
def apply_augmentation5 (Rq : Resampler5 ℚ) (Rz : Resampler5 ℤ)
    (rng : ℕ → ℚ) (k : ℕ) (image : Arr5 ℚ) (mask : Arr5 ℤ) :
    Option (Arr5 ℚ × Arr5 ℤ × ℕ) :=
  let p1 : Arr5 ℚ × Arr5 ℤ :=
    if 1/2 < rng k then (npFlip5Ax3 image, npFlip5Ax3 mask) else (image, mask)
  let p2 : Arr5 ℚ × Arr5 ℤ :=
    if 1/2 < rng (k+1) then (npFlip5Ax2 p1.1, npFlip5Ax2 p1.2) else p1
  let p3 : Arr5 ℚ × Arr5 ℤ :=
    if 1/2 < rng (k+2) then (npFlip5Ax1 p2.1, npFlip5Ax1 p2.2) else p2
  let s4 : (Arr5 ℚ × Arr5 ℤ) × ℕ :=
    if 1/2 < rng (k+3) then
      let angle := uniform (-30) 30 (rng (k+4))
      ((scipyRotate5 Rq p3.1 angle 3, scipyRotate5 Rz p3.2 angle 0), k+5)
    else (p3, k+4)
  if 1/2 < rng s4.2 then
    none
  else
    some (npSlice5of4 s4.1.1 256 256 128, npSlice5of4 s4.1.2 256 256 128,
      s4.2 + 1)

/-- Error kinds that `MRIDataset.__getitem__` can raise. -/
inductive PyError where
  | indexError
  | fileNotFound
  | valueError
  deriving DecidableEq

/-- `os.path.join` for a directory without trailing separator. -/
def pathJoin (dir name : String) : String :=
  dir ++ "/" ++ name

/-- Lexicographic comparison of character lists by code point, the order
Python string comparison uses. -/
def charListLe : List Char → List Char → Bool
  | [], _ => true
  | _ :: _, [] => false
  | x :: xs, y :: ys => if x < y then true else if y < x then false else charListLe xs ys

/-- Lexicographic string comparison by code point. -/
def strLe (a b : String) : Bool :=
  charListLe a.data b.data

/-- Insertion of a string into a lexicographically sorted list. -/
def insertSorted (x : String) : List String → List String
  | [] => [x]
  | y :: ys => if strLe x y then x :: y :: ys else y :: insertSorted x ys

/-- Python `sorted` on a list of strings (insertion sort; only the sorted
order and the length are relevant to any claim). -/
def pySorted : List String → List String
  | [] => []
  | x :: xs => insertSorted x (pySorted xs)

/-- Python `f.endswith('.nii.gz')`, expressed on the character list. -/
def endsWithNii (f : String) : Bool :=
  (".nii.gz" : String).data.isSuffixOf f.data

/-- `sorted([f for f in os.listdir(d) if f.endswith('.nii.gz')])`
(dataset.py lines 20-21). -/
def listNiiSorted (listing : List String) : List String :=
  pySorted (listing.filter endsWithNii)

/-- The state of an `MRIDataset` after `__init__` (dataset.py lines 10-23). -/
structure MRIDataset where
  image_dir : String
  mask_dir : String
  image_files : List String
  mask_files : List String
  augment : Bool

/-- `MRIDataset.__init__`, with the results of the two `os.listdir` calls
passed in explicitly (the directory contents at construction time). -/
def MRIDataset.make (image_dir mask_dir : String)
    (imageListing maskListing : List String) (augment : Bool) : MRIDataset :=
  ⟨image_dir, mask_dir, listNiiSorted imageListing, listNiiSorted maskListing,
    augment⟩

/-- `MRIDataset.__len__` (dataset.py lines 25-26): the number of image
files only. -/
def MRIDataset.size (d : MRIDataset) : ℕ :=
  d.image_files.length

/-- `MRIDataset.__getitem__` (dataset.py lines 28-63).  `fs` maps a path to
the 4-dimensional array `nib.load(path).get_fdata()` would produce (`none`
when the file is missing); the spec fixes volumes at 4 axes, three trailing
spatial ones plus a leading channel axis.  Steps in source order: resolve
both sorted file names at `idx` (an out-of-range index raises before any
load), load both volumes, crop with `[:, :256, :256, :128]`, min-max
normalize the image, cast the mask to int64 and clip it to non-negative,
`expand_dims` both, then augment when enabled.  The float32 cast of the
image (line 45) is the identity in the exact rational model. -/
def MRIDataset.getItem (d : MRIDataset) (fs : String → Option (Arr4 ℚ))
    (Rq : Resampler5 ℚ) (Rz : Resampler5 ℤ) (rng : ℕ → ℚ) (idx : ℕ) :
    Except PyError (Arr5 ℚ × Arr5 ℤ) :=
  match d.image_files[idx]? with
  | none => .error .indexError
  | some iname =>
    match d.mask_files[idx]? with
    | none => .error .indexError
    | some mname =>
      match fs (pathJoin d.image_dir iname) with
      | none => .error .fileNotFound
      | some image0 =>
        match fs (pathJoin d.mask_dir mname) with
        | none => .error .fileNotFound
        | some mask0 =>
          let image1 := normalizeArr (crop4 image0)
          let mask1 := maskProcess (crop4 mask0)
          let image2 := expandDims image1
          let mask2 := expandDims mask1
          if d.augment then
            match apply_augmentation5 Rq Rz rng 0 image2 mask2 with
            | none => .error .valueError
            | some (i, m, _) => .ok (i, m)
          else
            .ok (image2, mask2)

/-- Shape of a 5-dimensional torch tensor `(batch, channel, d, h, w)`. -/
abbrev Shape5 : Type := ℕ × ℕ × ℕ × ℕ × ℕ

/-- Output-shape semantics of `nn.Conv3d(inC, outC, kernel_size=ks,
stride=st, padding=pad)` with cubic kernel: requires the input channel
count to match and each padded spatial extent to cover the kernel
(otherwise torch raises, modelled as `none`); each spatial size becomes
`(s + 2*pad - ks) / st + 1` with flooring division. -/
def conv3dShape (inC outC ks st pad : ℕ) (s : Shape5) : Option Shape5 :=
  let (n, c, d, h, w) := s
  if c = inC ∧ ks ≤ d + 2*pad ∧ ks ≤ h + 2*pad ∧ ks ≤ w + 2*pad then
    some (n, outC, (d + 2*pad - ks) / st + 1, (h + 2*pad - ks) / st + 1,
      (w + 2*pad - ks) / st + 1)
  else none

/-- Output-shape semantics of `nn.ConvTranspose3d(inC, outC, kernel_size=2,
stride=2)`: requires matching channels and non-degenerate spatial input;
each spatial size becomes `(s - 1) * 2 + 2 = 2 * s`. -/
def convTranspose3dShape (inC outC : ℕ) (s : Shape5) : Option Shape5 :=
  let (n, c, d, h, w) := s
  if c = inC ∧ 1 ≤ d ∧ 1 ≤ h ∧ 1 ≤ w then
    some (n, outC, (d - 1) * 2 + 2, (h - 1) * 2 + 2, (w - 1) * 2 + 2)
  else none

/-- Output-shape semantics of `nn.BatchNorm3d(numF)`: identity on the
shape, but raises on a channel-count mismatch. -/
def batchNorm3dShape (numF : ℕ) (s : Shape5) : Option Shape5 :=
  if s.2.1 = numF then some s else none

/-- Output-shape semantics of `nn.MaxPool3d(kernel_size=2, stride=2)`:
requires each spatial extent to cover the kernel; sizes halve with
flooring. -/
def maxPool3dShape (s : Shape5) : Option Shape5 :=
  let (n, c, d, h, w) := s
  if 2 ≤ d ∧ 2 ≤ h ∧ 2 ≤ w then
    some (n, c, (d - 2) / 2 + 1, (h - 2) / 2 + 1, (w - 2) / 2 + 1)
  else none

/-- Shape semantics of `DoubleConv` (modules.py lines 4-17): two
`Conv3d(·, ·, kernel_size=3, padding=1)` + `BatchNorm3d` + `ReLU` pairs
(`ReLU` does not affect shapes). -/
def doubleConvShape (inC outC : ℕ) (s : Shape5) : Option Shape5 := do
  let s1 ← conv3dShape inC outC 3 1 1 s
  let s2 ← batchNorm3dShape outC s1
  let s3 ← conv3dShape outC outC 3 1 1 s2
  batchNorm3dShape outC s3

/-- Shape semantics of `ResNetBlock` (modules.py lines 19-41):
conv1/bn1/relu, conv2/bn2, then `out += self.shortcut(x)` where the
shortcut is the identity unless `stride != 1 or in_channels !=
out_channels`, in which case it is a `Conv3d(inC, outC, kernel_size=1,
stride)`; the in-place addition requires the two shapes to agree. -/
def resNetBlockShape (inC outC stride : ℕ) (s : Shape5) : Option Shape5 := do
  let s1 ← conv3dShape inC outC 3 stride 1 s
  let s2 ← batchNorm3dShape outC s1
  let s3 ← conv3dShape outC outC 3 1 1 s2
  let s4 ← batchNorm3dShape outC s3
  let sc ← if stride ≠ 1 ∨ inC ≠ outC then conv3dShape inC outC 1 stride 0 s
           else some s
  if s4 = sc then some s4 else none

/-- Shape semantics of `UNet3D.contracting_block` (modules.py lines 65-69):
a `ResNetBlock` followed by `MaxPool3d(2, 2)`. -/
def contractingBlockShape (inC outC : ℕ) (s : Shape5) : Option Shape5 := do
  let s1 ← resNetBlockShape inC outC 1 s
  maxPool3dShape s1

/-- Shape semantics of `UNet3D.expanding_block` (modules.py lines 71-75):
`ConvTranspose3d(inC, outC, 2, 2)` followed by `DoubleConv(outC, outC)`. -/
def expandingBlockShape (inC outC : ℕ) (s : Shape5) : Option Shape5 := do
  let s1 ← convTranspose3dShape inC outC s
  doubleConvShape outC outC s1

/-- Shape semantics of `UNet3D.center_crop` (modules.py lines 112-118):
the trailing three axes are sliced to the target's spatial sizes
(`tensor[:, :, :d, :h, :w]`), so each becomes the minimum of the two. -/
def centerCropShape (s target : Shape5) : Shape5 :=
  (s.1, s.2.1, min s.2.2.1 target.2.2.1, min s.2.2.2.1 target.2.2.2.1,
    min s.2.2.2.2 target.2.2.2.2)

/-- Shape semantics of `torch.cat((a, b), dim=1)`: all axes except the
channel axis must agree (otherwise torch raises); channels add. -/
def cat1Shape (a b : Shape5) : Option Shape5 :=
  if a.1 = b.1 ∧ a.2.2.1 = b.2.2.1 ∧ a.2.2.2.1 = b.2.2.2.1 ∧
      a.2.2.2.2 = b.2.2.2.2 then
    some (a.1, a.2.1 + b.2.1, a.2.2.1, a.2.2.2.1, a.2.2.2.2)
  else none

/-- Shape semantics of `UNet3D.forward` for a network built by
`UNet3D.__init__(in_channels, out_channels)` (modules.py lines 44-110),
following the source statement by statement — including the line-93/95
construction of `combined_input_dec4` and first computation of `dec4`,
and the line-99 *re*-computation `dec4 = self.dec4(self.center_crop(
bottleneck, enc4))`, which feeds the 1024-channel cropped bottleneck to
`self.dec4 = expanding_block(1024 + 512, 512)`. -/
def unet3dForwardShape (inC outC : ℕ) (x : Shape5) : Option Shape5 := do
  let enc1 ← contractingBlockShape inC 64 x
  let enc2 ← contractingBlockShape 64 128 enc1
  let enc3 ← contractingBlockShape 128 256 enc2
  let enc4 ← contractingBlockShape 256 512 enc3
  let bottleneck ← resNetBlockShape 512 1024 1 enc4
  let combinedInputDec4 ← cat1Shape (centerCropShape bottleneck enc4) enc4
  let _dec4First ← expandingBlockShape (1024 + 512) 512 combinedInputDec4
  let dec4a ← expandingBlockShape (1024 + 512) 512
    (centerCropShape bottleneck enc4)
  let dec4 ← cat1Shape dec4a enc4
  let dec3a ← expandingBlockShape (512 + 256) 256 (centerCropShape dec4 enc3)
  let dec3 ← cat1Shape dec3a enc3
  let dec2a ← expandingBlockShape (256 + 128) 128 (centerCropShape dec3 enc2)
  let dec2 ← cat1Shape dec2a enc2
  let dec1a ← expandingBlockShape (128 + 64) 64 (centerCropShape dec2 enc1)
  let dec1 ← cat1Shape dec1a enc1
  conv3dShape 64 outC 1 1 0 dec1

/-- numpy/torch slicing `t[:, :, :s2, :s3, :s4]` on a 5-dimensional tensor:
axes 0 and 1 kept whole, each sliced trailing axis truncated to
`min (current size) stop`, entries keeping their 0-origin indices. -/
def npSlice5 {α : Type} (t : Arr5 α) (s2 s3 s4 : ℕ) : Arr5 α :=
  ⟨(t.shape.1, t.shape.2.1, min t.shape.2.2.1 s2, min t.shape.2.2.2.1 s3,
      min t.shape.2.2.2.2 s4), t.data⟩

/-- `UNet3D.center_crop` at the tensor level (modules.py lines 112-118):
reads the target's spatial sizes `(d, h, w)` and returns
`tensor[:, :, :d, :h, :w]`. -/
def center_crop {α : Type} (t target : Arr5 α) : Arr5 α :=
  npSlice5 t target.shape.2.2.1 target.shape.2.2.2.1 target.shape.2.2.2.2

/-- Recognizer for recorded rotation calls. -/
def SciCall.isRot : SciCall → Bool
  | .rotateCall _ _ _ => true
  | .zoomCall _ _ _ => false

/-- Two passes of `apply_augmentation` over the same stream, the second
starting at the stream position where the first stopped (two successive
calls on ambient `random` state). -/
def augTwice (Rq : Resampler ℚ) (Rz : Resampler ℤ) (rng : ℕ → ℚ)
    (img : Arr4 ℚ) (msk : Arr4 ℤ) : AugResult :=
  let r1 := apply_augmentation Rq Rz rng 0 img msk
  apply_augmentation Rq Rz rng r1.next r1.img r1.msk

/-- Draw stream that fixes exactly one flip decision to "always flip" and
every other decision to "never": one `apply_augmentation` pass consumes 5
draws when rotation and zoom are skipped, so position `a ∈ {0, 1, 2}`
selects the same flip (axis 3, 2 or 1 respectively) in every pass. -/
def rngFlip (a : ℕ) : ℕ → ℚ :=
  fun n => if n % 5 = a then 1 else 0

/-- Draw stream taking only the rotation branch, with angle draw `1/2`
(angle `uniform (-30) 30 (1/2) = 0`). -/
def rngRotEx : ℕ → ℚ :=
  fun n => if n = 3 then 1 else if n = 4 then 1/2 else 0

/-- Draw stream taking only the zoom branch, with factor draw `0`
(factor `uniform 0.9 1.1 0 = 0.9`). -/
def rngZoomEx : ℕ → ℚ :=
  fun n => if n = 4 then 1 else 0

/-- Constant-zero draw stream. -/
def rngZero : ℕ → ℚ :=
  fun _ => 0

/-- Interpolation backend whose entries are ignored by every claim: rotate
and zoom return the input entries unchanged. -/
def rsq4 : Resampler ℚ :=
  ⟨fun _ _ d => d, fun _ _ d => d⟩

/-- Identity interpolation backend for integer arrays. -/
def rsz4 : Resampler ℤ :=
  ⟨fun _ _ d => d, fun _ _ d => d⟩

/-- Identity 5-dimensional rotation backend. -/
def rsq5 : Resampler5 ℚ :=
  ⟨fun _ _ d => d⟩

/-- Identity 5-dimensional rotation backend for integer arrays. -/
def rsz5 : Resampler5 ℤ :=
  ⟨fun _ _ d => d⟩

/-- A concrete `(1, 256, 256, 128)` image volume with non-constant entries. -/
def img0ex : Arr4 ℚ :=
  ⟨(1, 256, 256, 128), fun i j k l => ((i + 2*j + 3*k + 5*l : ℕ) : ℚ)⟩

/-- A concrete `(1, 256, 256, 128)` integer mask volume. -/
def msk0ex : Arr4 ℤ :=
  ⟨(1, 256, 256, 128), fun i j k l => ((i + j + k + l : ℕ) : ℤ)⟩

/-- A tiny non-constant volume: entries 0 and 2. -/
def t1ex : Arr4 ℚ :=
  ⟨(1, 1, 1, 2), fun _ _ _ l => if l = 0 then 0 else 2⟩

/-- A tiny constant volume of value 5. -/
def t2ex : Arr4 ℚ :=
  ⟨(1, 1, 1, 1), fun _ _ _ _ => 5⟩

/-- A tiny mask volume with a negative label `-7` and a positive label `3`. -/
def t3ex : Arr4 ℚ :=
  ⟨(1, 1, 1, 2), fun _ _ _ l => if l = 0 then -7 else 3⟩

/-- A concrete `(1, 1, 130, 130, 65)` tensor with distinguishable entries. -/
def t130ex : Arr5 ℚ :=
  ⟨(1, 1, 130, 130, 65), fun a b i j k => ((a + b + 7*i + 11*j + 13*k : ℕ) : ℚ)⟩

/-- A concrete `(1, 1, 128, 128, 64)` target tensor. -/
def tgt128ex : Arr5 ℚ :=
  ⟨(1, 1, 128, 128, 64), fun _ _ _ _ _ => 0⟩

/-- A concrete loaded 4-axis volume of shape `(1, 300, 300, 200)` (one
leading channel axis, trailing spatial axes at least `256×256×128`). -/
def vol4ex : Arr4 ℚ :=
  ⟨(1, 300, 300, 200), fun _ _ _ _ => 0⟩

/-- A dataset over one image file and one mask file, augmentation off. -/
def dsEx : MRIDataset :=
  MRIDataset.make "images" "masks" ["a.nii.gz"] ["a.nii.gz"] false

/-- File store holding `vol4ex` at both paths of `dsEx`. -/
def fsEx : String → Option (Arr4 ℚ) :=
  fun p =>
    if p = "images/a.nii.gz" ∨ p = "masks/a.nii.gz" then some vol4ex else none

/-- A dataset whose mask directory holds fewer `.nii.gz` files (1) than its
image directory (2). -/
def dsShortMaskEx : MRIDataset :=
  MRIDataset.make "images" "masks" ["b.nii.gz", "a.nii.gz", "notes.txt"]
    ["a.nii.gz"] false

theorem foldlMin_le_init (xs : List ℚ) (a : ℚ) : xs.foldl min a ≤ a := by
  induction xs generalizing a with
  | nil => exact le_refl a
  | cons x xs ih =>
    exact le_trans (ih (min a x)) (min_le_left a x)

theorem foldlMin_le_mem {x : ℚ} (xs : List ℚ) (a : ℚ) (hx : x ∈ xs) :
    xs.foldl min a ≤ x := by
  induction xs generalizing a with
  | nil => cases hx
  | cons y ys ih =>
    rcases List.mem_cons.mp hx with h | h
    · subst h
      exact le_trans (foldlMin_le_init ys (min a x)) (min_le_right a x)
    · exact ih (min a y) h

theorem listMin_le_of_mem {l : List ℚ} {x : ℚ} (hx : x ∈ l) :
    listMin l ≤ x := by
  cases l with
  | nil => cases hx
  | cons y ys =>
    rcases List.mem_cons.mp hx with h | h
    · subst h
      exact foldlMin_le_init ys x
    · exact foldlMin_le_mem ys y h

theorem init_le_foldlMax (xs : List ℚ) (a : ℚ) : a ≤ xs.foldl max a := by
  induction xs generalizing a with
  | nil => exact le_refl a
  | cons x xs ih =>
    exact le_trans (le_max_left a x) (ih (max a x))

theorem mem_le_foldlMax {x : ℚ} (xs : List ℚ) (a : ℚ) (hx : x ∈ xs) :
    x ≤ xs.foldl max a := by
  induction xs generalizing a with
  | nil => cases hx
  | cons y ys ih =>
    rcases List.mem_cons.mp hx with h | h
    · subst h
      exact le_trans (le_max_right a x) (init_le_foldlMax ys (max a x))
    · exact ih (max a y) h

theorem le_listMax_of_mem {l : List ℚ} {x : ℚ} (hx : x ∈ l) :
    x ≤ listMax l := by
  cases l with
  | nil => cases hx
  | cons y ys =>
    rcases List.mem_cons.mp hx with h | h
    · subst h
      exact init_le_foldlMax ys x
    · exact mem_le_foldlMax ys y h

theorem foldlMin_const (xs : List ℚ) (a q : ℚ) (h : ∀ x ∈ xs, x = q)
    (ha : a = q) : xs.foldl min a = q := by
  induction xs generalizing a with
  | nil => exact ha
  | cons x xs ih =>
    have hx : x = q := h x (List.mem_cons_self x xs)
    refine ih (min a x) (fun y hy => h y (List.mem_cons_of_mem x hy)) ?_
    rw [ha, hx, min_self]

theorem foldlMax_const (xs : List ℚ) (a q : ℚ) (h : ∀ x ∈ xs, x = q)
    (ha : a = q) : xs.foldl max a = q := by
  induction xs generalizing a with
  | nil => exact ha
  | cons x xs ih =>
    have hx : x = q := h x (List.mem_cons_self x xs)
    refine ih (max a x) (fun y hy => h y (List.mem_cons_of_mem x hy)) ?_
    rw [ha, hx, max_self]

theorem mem_arrEntries (t : Arr4 ℚ) {i j k l : ℕ} (hi : i < t.shape.1)
    (hj : j < t.shape.2.1) (hk : k < t.shape.2.2.1) (hl : l < t.shape.2.2.2) :
    t.data i j k l ∈ arrEntries t := by
  simp only [arrEntries, List.mem_flatMap, List.mem_map, List.mem_range]
  exact ⟨i, hi, j, hj, k, hk, l, hl, rfl⟩

theorem arrEntries_all_eq {t : Arr4 ℚ} {q : ℚ}
    (h : ∀ i j k l, i < t.shape.1 → j < t.shape.2.1 → k < t.shape.2.2.1 →
      l < t.shape.2.2.2 → t.data i j k l = q) :
    ∀ x ∈ arrEntries t, x = q := by
  intro x hx
  simp only [arrEntries, List.mem_flatMap, List.mem_map, List.mem_range] at hx
  obtain ⟨i, hi, j, hj, k, hk, l, hl, rfl⟩ := hx
  exact h i j k l hi hj hk hl

theorem arrMax_eq_arrMin_of_const {t : Arr4 ℚ} {q : ℚ}
    (h : ∀ i j k l, i < t.shape.1 → j < t.shape.2.1 → k < t.shape.2.2.1 →
      l < t.shape.2.2.2 → t.data i j k l = q) :
    arrMax t = arrMin t := by
  have hall := arrEntries_all_eq h
  unfold arrMax arrMin
  cases he : arrEntries t with
  | nil => rfl
  | cons x xs =>
    rw [he] at hall
    have hx : x = q := hall x (List.mem_cons_self x xs)
    have hxs : ∀ y ∈ xs, y = q := fun y hy => hall y (List.mem_cons_of_mem x hy)
    show xs.foldl max x = xs.foldl min x
    rw [foldlMax_const xs x q hxs hx, foldlMin_const xs x q hxs hx]

theorem pyTrunc_intCast (z : ℤ) : pyTrunc ((z : ℚ)) = z := by
  simp [pyTrunc, Rat.num_intCast, Rat.den_intCast, Int.tdiv_one]

/-- C1: the spec's concrete scenario claims `UNet3D(1, 4).forward` on a
`(1, 1, 256, 256, 128)` input returns a finite `(1, 4, 256, 256, 128)`
tensor; on the code the forward pass raises instead.  The encoder and the
line-93/95 first computation of `dec4` succeed (second and third
conjuncts), but the line-99 recomputation feeds the cropped 1024-channel
bottleneck to `self.dec4`, whose transposed convolution was built for
`1024 + 512 = 1536` input channels (fourth conjunct), so the whole forward
pass errors (first conjunct). -/
theorem unet3dForward_raises_on_spec_scenario :
    unet3dForwardShape 1 4 (1, 1, 256, 256, 128) = none ∧
    contractingBlockShape 256 512 (1, 256, 32, 32, 16) =
      some (1, 512, 16, 16, 8) ∧
    resNetBlockShape 512 1024 1 (1, 512, 16, 16, 8) =
      some (1, 1024, 16, 16, 8) ∧
    expandingBlockShape (1024 + 512) 512
      (centerCropShape (1, 1024, 16, 16, 8) (1, 512, 16, 16, 8)) = none :=
  ⟨by decide, by decide, by decide, by decide⟩

/-- C2: evaluating `__getitem__` on a 4-axis volume of shape
`(1, 300, 300, 200)` (one leading channel axis, trailing spatial axes well
above `256×256×128`): both returned tensors have the rank-5 shape
`(1, 1, 256, 256, 128)` — two leading axes (the `expand_dims` axis on top
of the file's own channel axis), not the single leading channel axis the
claim (and the comment at dataset.py line 52) describes. -/
theorem getItem_returns_rank5 :
    (dsEx.getItem fsEx rsq5 rsz5 rngZero 0).toOption.map
      (fun p => (p.1.shape, p.2.shape)) =
    some ((1, 1, 256, 256, 128), (1, 1, 256, 256, 128)) := by
  decide

/-- C4: `UNet3D.center_crop` takes the index-0-anchored prefix slice: when
the target's spatial sizes `(d, h, w)` are at most the tensor's, the result
has the tensor's batch and channel sizes with spatial sizes exactly
`(d, h, w)`, and every entry keeps its original 0-origin index. -/
theorem center_crop_zero_origin_prefix {α : Type} (t target : Arr5 α)
    (n c dd hh ww n2 c2 d h w : ℕ)
    (ht : t.shape = (n, c, dd, hh, ww))
    (htg : target.shape = (n2, c2, d, h, w))
    (hd : d ≤ dd) (hhh : h ≤ hh) (hw : w ≤ ww) :
    (center_crop t target).shape = (n, c, d, h, w) ∧
    ∀ a b i j k, (center_crop t target).data a b i j k = t.data a b i j k := by
  refine ⟨?_, fun _ _ _ _ _ => rfl⟩
  simp [center_crop, npSlice5, ht, htg, min_eq_right hd, min_eq_right hhh,
    min_eq_right hw]

/-- Witness for C4 at the spec's concrete scenario: a `(1, 1, 130, 130, 65)`
tensor cropped against a `(1, 1, 128, 128, 64)` target. -/
theorem center_crop_zero_origin_prefix_w :
    (center_crop t130ex tgt128ex).shape = (1, 1, 128, 128, 64) ∧
    (center_crop t130ex tgt128ex).data 0 0 10 20 30 =
      t130ex.data 0 0 10 20 30 := by
  have h := center_crop_zero_origin_prefix t130ex tgt128ex
    1 1 130 130 65 1 1 128 128 64 rfl rfl (by decide) (by decide) (by decide)
  exact ⟨h.1, h.2 0 0 10 20 30⟩

/-- C8: the mask pipeline (cast to int64, then `np.clip(mask, 0, None)`)
returns no negative value at any position; and on an integer-valued entry
`z` the result is `0` when `z` is negative and `z` itself otherwise. -/
theorem maskProcess_clips_negatives (t : Arr4 ℚ) (i j k l : ℕ) :
    0 ≤ (maskProcess t).data i j k l ∧
    ∀ z : ℤ, t.data i j k l = (z : ℚ) →
      (z < 0 → (maskProcess t).data i j k l = 0) ∧
      (0 ≤ z → (maskProcess t).data i j k l = z) := by
  refine ⟨le_max_right _ _, ?_⟩
  intro z hz
  have htr : pyTrunc (t.data i j k l) = z := by rw [hz]; exact pyTrunc_intCast z
  simp only [maskProcess, clipNonneg, astypeInt, htr]
  exact ⟨fun hneg => max_eq_right (le_of_lt hneg), fun hpos => max_eq_left hpos⟩

/-- Witness for C8 on a mask with entries `-7` and `3`. -/
theorem maskProcess_clips_negatives_w :
    0 ≤ (maskProcess t3ex).data 0 0 0 0 ∧
    (maskProcess t3ex).data 0 0 0 0 = 0 ∧
    (maskProcess t3ex).data 0 0 0 1 = 3 := by
  refine ⟨(maskProcess_clips_negatives t3ex 0 0 0 0).1, ?_, ?_⟩
  · exact ((maskProcess_clips_negatives t3ex 0 0 0 0).2 (-7) (by decide)).1
      (by decide)
  · exact ((maskProcess_clips_negatives t3ex 0 0 0 1).2 3 (by decide)).2
      (by decide)

/-- C9: with augmentation disabled, `__getitem__` does not read the random
stream at all: for any two ambient random states the results coincide
exactly (same index, same directory contents, same file store). -/
theorem getItem_deterministic_without_augment (d : MRIDataset)
    (fs : String → Option (Arr4 ℚ)) (Rq : Resampler5 ℚ) (Rz : Resampler5 ℤ)
    (rng rng2 : ℕ → ℚ) (idx : ℕ) (h : d.augment = false) :
    d.getItem fs Rq Rz rng idx = d.getItem fs Rq Rz rng2 idx := by
  simp only [MRIDataset.getItem, h, Bool.false_eq_true, if_false]

/-- Witness for C9: two different random streams on the concrete dataset. -/
theorem getItem_deterministic_without_augment_w :
    dsEx.getItem fsEx rsq5 rsz5 rngZero 0 =
      dsEx.getItem fsEx rsq5 rsz5 (fun _ => 1) 0 :=
  getItem_deterministic_without_augment dsEx fsEx rsq5 rsz5 rngZero
    (fun _ => 1) 0 rfl

theorem insertSorted_length (x : String) (l : List String) :
    (insertSorted x l).length = l.length + 1 := by
  induction l with
  | nil => rfl
  | cons y ys ih =>
    unfold insertSorted
    split
    · rfl
    · simp [ih]

theorem pySorted_length (l : List String) :
    (pySorted l).length = l.length := by
  induction l with
  | nil => rfl
  | cons x xs ih =>
    unfold pySorted
    rw [insertSorted_length, ih]
    rfl

/-- C10: `__len__` counts only the (sorted, filtered) `.nii.gz` files of
the image directory; and whenever the mask directory holds fewer `.nii.gz`
files, the index `len(mask_files)` is in range for `__len__` yet
`__getitem__` raises an index error there — for every file store, i.e.
before any file is loaded. -/
theorem size_counts_images_and_mask_shortfall_raises (imgDir mskDir : String)
    (imgListing mskListing : List String) (aug : Bool)
    (hlt : (MRIDataset.make imgDir mskDir imgListing mskListing aug).mask_files.length <
      (MRIDataset.make imgDir mskDir imgListing mskListing aug).size) :
    (MRIDataset.make imgDir mskDir imgListing mskListing aug).size =
      (imgListing.filter endsWithNii).length ∧
    ∃ i < (MRIDataset.make imgDir mskDir imgListing mskListing aug).size,
      ∀ (fs : String → Option (Arr4 ℚ)) (Rq : Resampler5 ℚ)
        (Rz : Resampler5 ℤ) (rng : ℕ → ℚ),
        (MRIDataset.make imgDir mskDir imgListing mskListing aug).getItem
          fs Rq Rz rng i = .error .indexError := by
  refine ⟨?_, ?_⟩
  · simp [MRIDataset.size, MRIDataset.make, listNiiSorted, pySorted_length]
  · refine ⟨(MRIDataset.make imgDir mskDir imgListing mskListing aug).mask_files.length,
      hlt, ?_⟩
    intro fs Rq Rz rng
    obtain ⟨iname, h1⟩ :
        ∃ x, ((MRIDataset.make imgDir mskDir imgListing mskListing aug).image_files)[
          (MRIDataset.make imgDir mskDir imgListing mskListing aug).mask_files.length]? = some x :=
      ⟨_, List.getElem?_eq_getElem hlt⟩
    have h2 : ((MRIDataset.make imgDir mskDir imgListing mskListing aug).mask_files)[
        (MRIDataset.make imgDir mskDir imgListing mskListing aug).mask_files.length]? = none :=
      List.getElem?_eq_none (le_refl _)
    unfold MRIDataset.getItem
    rw [h1, h2]

/-- Witness for C10: two image files, one mask file. -/
theorem size_counts_images_and_mask_shortfall_raises_w :
    dsShortMaskEx.size = 2 ∧
    ∃ i < dsShortMaskEx.size,
      ∀ (fs : String → Option (Arr4 ℚ)) (Rq : Resampler5 ℚ)
        (Rz : Resampler5 ℤ) (rng : ℕ → ℚ),
        dsShortMaskEx.getItem fs Rq Rz rng i = .error .indexError := by
  have h := size_counts_images_and_mask_shortfall_raises "images" "masks"
    ["b.nii.gz", "a.nii.gz", "notes.txt"] ["a.nii.gz"] false (by decide)
  exact ⟨by decide, h.2⟩

/-- C3: min-max normalization: when the (cropped) volume is non-constant
(`max ≠ min`), every in-bounds normalized value lies in `[0, 1]`; when all
in-bounds entries equal one value, normalization is the identity
(passthrough), the array is returned unchanged. -/
theorem normalize_unit_range_or_passthrough (t : Arr4 ℚ) :
    (arrMax t ≠ arrMin t →
      ∀ i j k l, i < t.shape.1 → j < t.shape.2.1 → k < t.shape.2.2.1 →
        l < t.shape.2.2.2 →
        0 ≤ (normalizeArr t).data i j k l ∧
        (normalizeArr t).data i j k l ≤ 1) ∧
    ∀ q : ℚ, (∀ i j k l, i < t.shape.1 → j < t.shape.2.1 →
      k < t.shape.2.2.1 → l < t.shape.2.2.2 → t.data i j k l = q) →
      normalizeArr t = t := by
  constructor
  · intro hne i j k l hi hj hk hl
    have hmem := mem_arrEntries t hi hj hk hl
    have hmin : arrMin t ≤ t.data i j k l := listMin_le_of_mem hmem
    have hmax : t.data i j k l ≤ arrMax t := le_listMax_of_mem hmem
    have hlt : arrMin t < arrMax t :=
      lt_of_le_of_ne (le_trans hmin hmax) (Ne.symm hne)
    have hpos : (0 : ℚ) < arrMax t - arrMin t := by linarith
    simp only [normalizeArr, normData, if_neg hne]
    constructor
    · exact div_nonneg (by linarith) (le_of_lt hpos)
    · rw [div_le_one hpos]
      linarith
  · intro q hq
    have heq : arrMax t = arrMin t := arrMax_eq_arrMin_of_const hq
    simp only [normalizeArr, normData, if_pos heq]

/-- Witness for C3: a non-constant volume with entries 0 and 2 (the value
at index `(0,0,0,1)` normalizes into `[0,1]`), and a constant volume of
value 5 returned unchanged. -/
theorem normalize_unit_range_or_passthrough_w :
    (0 ≤ (normalizeArr t1ex).data 0 0 0 1 ∧
      (normalizeArr t1ex).data 0 0 0 1 ≤ 1) ∧
    normalizeArr t2ex = t2ex := by
  constructor
  · exact (normalize_unit_range_or_passthrough t1ex).1 (by decide) 0 0 0 1
      (by decide) (by decide) (by decide) (by decide)
  · exact (normalize_unit_range_or_passthrough t2ex).2 5
      (fun _ _ _ _ _ _ _ _ => rfl)

theorem flipStage_only3 (rng : ℕ → ℚ) (k : ℕ) (p : Arr4 ℚ × Arr4 ℤ)
    (h0 : 1/2 < rng k) (h1 : ¬ 1/2 < rng (k+1)) (h2 : ¬ 1/2 < rng (k+2)) :
    flipStage rng k p = (npFlipAx3 p.1, npFlipAx3 p.2) := by
  simp only [flipStage, if_pos h0, if_neg h1, if_neg h2]

theorem flipStage_only2 (rng : ℕ → ℚ) (k : ℕ) (p : Arr4 ℚ × Arr4 ℤ)
    (h0 : ¬ 1/2 < rng k) (h1 : 1/2 < rng (k+1)) (h2 : ¬ 1/2 < rng (k+2)) :
    flipStage rng k p = (npFlipAx2 p.1, npFlipAx2 p.2) := by
  simp only [flipStage, if_neg h0, if_pos h1, if_neg h2]

theorem flipStage_only1 (rng : ℕ → ℚ) (k : ℕ) (p : Arr4 ℚ × Arr4 ℤ)
    (h0 : ¬ 1/2 < rng k) (h1 : ¬ 1/2 < rng (k+1)) (h2 : 1/2 < rng (k+2)) :
    flipStage rng k p = (npFlipAx1 p.1, npFlipAx1 p.2) := by
  simp only [flipStage, if_neg h0, if_neg h1, if_pos h2]

theorem rotateStage_skip (Rq : Resampler ℚ) (Rz : Resampler ℤ)
    (rng : ℕ → ℚ) (k : ℕ) (p : Arr4 ℚ × Arr4 ℤ) (h : ¬ 1/2 < rng k) :
    rotateStage Rq Rz rng k p = (p, k+1, []) := by
  simp only [rotateStage, if_neg h]

theorem zoomStage_skip (Rq : Resampler ℚ) (Rz : Resampler ℤ)
    (rng : ℕ → ℚ) (k : ℕ) (p : Arr4 ℚ × Arr4 ℤ) (h : ¬ 1/2 < rng k) :
    zoomStage Rq Rz rng k p = (p, k+1, []) := by
  simp only [zoomStage, if_neg h]

theorem aug_flip3_only (Rq : Resampler ℚ) (Rz : Resampler ℤ)
    (rng : ℕ → ℚ) (k : ℕ) (img : Arr4 ℚ) (msk : Arr4 ℤ)
    (h0 : 1/2 < rng k) (h1 : ¬ 1/2 < rng (k+1)) (h2 : ¬ 1/2 < rng (k+2))
    (h3 : ¬ 1/2 < rng (k+3)) (h4 : ¬ 1/2 < rng (k+4)) :
    apply_augmentation Rq Rz rng k img msk =
      ⟨crop4 (npFlipAx3 img), crop4 (npFlipAx3 msk), k+5, []⟩ := by
  unfold apply_augmentation
  simp only [flipStage_only3 rng k (img, msk) h0 h1 h2,
    rotateStage_skip Rq Rz rng (k+3) _ h3]
  simp [zoomStage_skip Rq Rz rng (k+4) _ h4]

theorem aug_flip2_only (Rq : Resampler ℚ) (Rz : Resampler ℤ)
    (rng : ℕ → ℚ) (k : ℕ) (img : Arr4 ℚ) (msk : Arr4 ℤ)
    (h0 : ¬ 1/2 < rng k) (h1 : 1/2 < rng (k+1)) (h2 : ¬ 1/2 < rng (k+2))
    (h3 : ¬ 1/2 < rng (k+3)) (h4 : ¬ 1/2 < rng (k+4)) :
    apply_augmentation Rq Rz rng k img msk =
      ⟨crop4 (npFlipAx2 img), crop4 (npFlipAx2 msk), k+5, []⟩ := by
  unfold apply_augmentation
  simp only [flipStage_only2 rng k (img, msk) h0 h1 h2,
    rotateStage_skip Rq Rz rng (k+3) _ h3]
  simp [zoomStage_skip Rq Rz rng (k+4) _ h4]

theorem aug_flip1_only (Rq : Resampler ℚ) (Rz : Resampler ℤ)
    (rng : ℕ → ℚ) (k : ℕ) (img : Arr4 ℚ) (msk : Arr4 ℤ)
    (h0 : ¬ 1/2 < rng k) (h1 : ¬ 1/2 < rng (k+1)) (h2 : 1/2 < rng (k+2))
    (h3 : ¬ 1/2 < rng (k+3)) (h4 : ¬ 1/2 < rng (k+4)) :
    apply_augmentation Rq Rz rng k img msk =
      ⟨crop4 (npFlipAx1 img), crop4 (npFlipAx1 msk), k+5, []⟩ := by
  unfold apply_augmentation
  simp only [flipStage_only1 rng k (img, msk) h0 h1 h2,
    rotateStage_skip Rq Rz rng (k+3) _ h3]
  simp [zoomStage_skip Rq Rz rng (k+4) _ h4]

/-- C7: for each of the three flip axes (stream `rngFlip a`, `a = 0, 1, 2`
fixing the flip decision for axis 3, 2, 1 respectively to "always flip"
and disabling the other four augmentation steps), two successive
`apply_augmentation` passes return the image and mask unchanged: same
shape and same value at every in-bounds index. -/
theorem flip_twice_is_identity (Rq : Resampler ℚ) (Rz : Resampler ℤ)
    (img : Arr4 ℚ) (msk : Arr4 ℤ) (a : ℕ) (ha : a < 3)
    (hI : img.shape = (1, 256, 256, 128))
    (hM : msk.shape = (1, 256, 256, 128)) :
    (augTwice Rq Rz (rngFlip a) img msk).img.shape = img.shape ∧
    (augTwice Rq Rz (rngFlip a) img msk).msk.shape = msk.shape ∧
    (∀ i j k l, i < 1 → j < 256 → k < 256 → l < 128 →
      (augTwice Rq Rz (rngFlip a) img msk).img.data i j k l =
        img.data i j k l) ∧
    (∀ i j k l, i < 1 → j < 256 → k < 256 → l < 128 →
      (augTwice Rq Rz (rngFlip a) img msk).msk.data i j k l =
        msk.data i j k l) := by
  interval_cases a
  · have e1 := aug_flip3_only Rq Rz (rngFlip 0) 0 img msk
      (by norm_num [rngFlip]) (by norm_num [rngFlip]) (by norm_num [rngFlip])
      (by norm_num [rngFlip]) (by norm_num [rngFlip])
    have e2 := aug_flip3_only Rq Rz (rngFlip 0) 5
      (crop4 (npFlipAx3 img)) (crop4 (npFlipAx3 msk))
      (by norm_num [rngFlip]) (by norm_num [rngFlip]) (by norm_num [rngFlip])
      (by norm_num [rngFlip]) (by norm_num [rngFlip])
    simp only [augTwice, e1, e2]
    refine ⟨?_, ?_, ?_, ?_⟩
    · simp [crop4, npSlice4, npFlipAx3, hI]
    · simp [crop4, npSlice4, npFlipAx3, hM]
    · intro i j k l hi hj hk hl
      simp only [crop4, npSlice4, npFlipAx3, hI]
      have : (128 : ℕ) - 1 - (128 - 1 - l) = l := by omega
      simp [this]
    · intro i j k l hi hj hk hl
      simp only [crop4, npSlice4, npFlipAx3, hM]
      have : (128 : ℕ) - 1 - (128 - 1 - l) = l := by omega
      simp [this]
  · have e1 := aug_flip2_only Rq Rz (rngFlip 1) 0 img msk
      (by norm_num [rngFlip]) (by norm_num [rngFlip]) (by norm_num [rngFlip])
      (by norm_num [rngFlip]) (by norm_num [rngFlip])
    have e2 := aug_flip2_only Rq Rz (rngFlip 1) 5
      (crop4 (npFlipAx2 img)) (crop4 (npFlipAx2 msk))
      (by norm_num [rngFlip]) (by norm_num [rngFlip]) (by norm_num [rngFlip])
      (by norm_num [rngFlip]) (by norm_num [rngFlip])
    simp only [augTwice, e1, e2]
    refine ⟨?_, ?_, ?_, ?_⟩
    · simp [crop4, npSlice4, npFlipAx2, hI]
    · simp [crop4, npSlice4, npFlipAx2, hM]
    · intro i j k l hi hj hk hl
      simp only [crop4, npSlice4, npFlipAx2, hI]
      have : (256 : ℕ) - 1 - (256 - 1 - k) = k := by omega
      simp [this]
    · intro i j k l hi hj hk hl
      simp only [crop4, npSlice4, npFlipAx2, hM]
      have : (256 : ℕ) - 1 - (256 - 1 - k) = k := by omega
      simp [this]
  · have e1 := aug_flip1_only Rq Rz (rngFlip 2) 0 img msk
      (by norm_num [rngFlip]) (by norm_num [rngFlip]) (by norm_num [rngFlip])
      (by norm_num [rngFlip]) (by norm_num [rngFlip])
    have e2 := aug_flip1_only Rq Rz (rngFlip 2) 5
      (crop4 (npFlipAx1 img)) (crop4 (npFlipAx1 msk))
      (by norm_num [rngFlip]) (by norm_num [rngFlip]) (by norm_num [rngFlip])
      (by norm_num [rngFlip]) (by norm_num [rngFlip])
    simp only [augTwice, e1, e2]
    refine ⟨?_, ?_, ?_, ?_⟩
    · simp [crop4, npSlice4, npFlipAx1, hI]
    · simp [crop4, npSlice4, npFlipAx1, hM]
    · intro i j k l hi hj hk hl
      simp only [crop4, npSlice4, npFlipAx1, hI]
      have : (256 : ℕ) - 1 - (256 - 1 - j) = j := by omega
      simp [this]
    · intro i j k l hi hj hk hl
      simp only [crop4, npSlice4, npFlipAx1, hM]
      have : (256 : ℕ) - 1 - (256 - 1 - j) = j := by omega
      simp [this]

/-- Witness for C7 at axis 3 (`a = 0`) on concrete non-constant arrays. -/
theorem flip_twice_is_identity_w :
    (augTwice rsq4 rsz4 (rngFlip 0) img0ex msk0ex).img.shape = img0ex.shape ∧
    (augTwice rsq4 rsz4 (rngFlip 0) img0ex msk0ex).img.data 0 5 6 7 =
      img0ex.data 0 5 6 7 ∧
    (augTwice rsq4 rsz4 (rngFlip 0) img0ex msk0ex).msk.data 0 5 6 7 =
      msk0ex.data 0 5 6 7 := by
  have h := flip_twice_is_identity rsq4 rsz4 img0ex msk0ex 0 (by norm_num)
    rfl rfl
  exact ⟨h.1,
    h.2.2.1 0 5 6 7 (by norm_num) (by norm_num) (by norm_num) (by norm_num),
    h.2.2.2 0 5 6 7 (by norm_num) (by norm_num) (by norm_num) (by norm_num)⟩

theorem rotateStage_take (Rq : Resampler ℚ) (Rz : Resampler ℤ)
    (rng : ℕ → ℚ) (k : ℕ) (p : Arr4 ℚ × Arr4 ℤ) (h : 1/2 < rng k) :
    rotateStage Rq Rz rng k p =
      ((scipyRotate Rq p.1 (uniform (-30) 30 (rng (k+1))) 3,
        scipyRotate Rz p.2 (uniform (-30) 30 (rng (k+1))) 0), k+2,
       [SciCall.rotateCall false (uniform (-30) 30 (rng (k+1))) 3,
        SciCall.rotateCall true (uniform (-30) 30 (rng (k+1))) 0]) := by
  simp only [rotateStage, if_pos h]

theorem zoomStage_take (Rq : Resampler ℚ) (Rz : Resampler ℤ)
    (rng : ℕ → ℚ) (k : ℕ) (p : Arr4 ℚ × Arr4 ℤ) (h : 1/2 < rng k) :
    zoomStage Rq Rz rng k p =
      ((scipyZoom Rq p.1 (uniform (9/10) (11/10) (rng (k+1))) 1,
        scipyZoom Rz p.2 (uniform (9/10) (11/10) (rng (k+1))) 0), k+2,
       [SciCall.zoomCall false (uniform (9/10) (11/10) (rng (k+1))) 1,
        SciCall.zoomCall true (uniform (9/10) (11/10) (rng (k+1))) 0]) := by
  simp only [zoomStage, if_pos h]

/-- C5 (amended): when the rotation branch is taken (decision draw above
0.5) with an angle draw in `[0, 1]`, the recorded rotation calls are
exactly two, image and mask rotated by the same angle `a ∈ [-30, 30]` —
but the image is resampled with scipy's default spline order 3 (the source
omits `order`), not order 1 as the claim states; the mask uses order 0. -/
theorem rotation_same_angle_image_order3_mask_order0
    (Rq : Resampler ℚ) (Rz : Resampler ℤ) (rng : ℕ → ℚ) (k : ℕ)
    (img : Arr4 ℚ) (msk : Arr4 ℤ)
    (hrot : 1/2 < rng (k+3)) (h0 : 0 ≤ rng (k+4)) (h1 : rng (k+4) ≤ 1) :
    ∃ a : ℚ, -30 ≤ a ∧ a ≤ 30 ∧
      (apply_augmentation Rq Rz rng k img msk).trace.filter SciCall.isRot =
        [SciCall.rotateCall false a 3, SciCall.rotateCall true a 0] := by
  refine ⟨uniform (-30) 30 (rng (k+4)), ?_, ?_, ?_⟩
  · unfold uniform; nlinarith
  · unfold uniform; nlinarith
  · unfold apply_augmentation
    simp only [rotateStage_take Rq Rz rng (k+3) _ hrot]
    by_cases hz : 1/2 < rng (k+3+2)
    · simp [zoomStage_take Rq Rz rng (k+3+2) _ hz, SciCall.isRot]
    · simp [zoomStage_skip Rq Rz rng (k+3+2) _ hz, SciCall.isRot]

/-- C5 counterexample: with the rotation branch forced and the angle draw
`1/2` (angle 0), the trace holds an image rotation call of order 3 and no
image rotation call of the claimed order 1 for any angle. -/
theorem rotation_image_order_is_3_not_1 :
    (apply_augmentation rsq4 rsz4 rngRotEx 0 img0ex msk0ex).trace =
      [SciCall.rotateCall false 0 3, SciCall.rotateCall true 0 0] ∧
    ∀ a : ℚ, SciCall.rotateCall false a 1 ∉
      (apply_augmentation rsq4 rsz4 rngRotEx 0 img0ex msk0ex).trace := by
  have hang : uniform (-30) 30 (rngRotEx (0+3+1)) = 0 := by
    norm_num [uniform, rngRotEx]
  have htr : (apply_augmentation rsq4 rsz4 rngRotEx 0 img0ex msk0ex).trace =
      [SciCall.rotateCall false 0 3, SciCall.rotateCall true 0 0] := by
    unfold apply_augmentation
    simp only [rotateStage_take rsq4 rsz4 rngRotEx (0+3) _
      (by norm_num [rngRotEx]), hang]
    simp [zoomStage_skip rsq4 rsz4 rngRotEx (0+3+2) _ (by norm_num [rngRotEx])]
  refine ⟨htr, ?_⟩
  intro a ha
  rw [htr] at ha
  simp [SciCall.rotateCall.injEq] at ha

/-- Witness for C5 (amended) on the concrete stream `rngRotEx`. -/
theorem rotation_same_angle_image_order3_mask_order0_w :
    ∃ a : ℚ, -30 ≤ a ∧ a ≤ 30 ∧
      (apply_augmentation rsq4 rsz4 rngRotEx 0 img0ex msk0ex).trace.filter
        SciCall.isRot =
        [SciCall.rotateCall false a 3, SciCall.rotateCall true a 0] :=
  rotation_same_angle_image_order3_mask_order0 rsq4 rsz4 rngRotEx 0
    img0ex msk0ex (by norm_num [rngRotEx]) (by norm_num [rngRotEx])
    (by norm_num [rngRotEx])

theorem le_pyRound_of_le (n : ℕ) (q : ℚ) (h : (n : ℚ) ≤ q) :
    (n : ℤ) ≤ pyRound q := by
  have h1 : (n : ℤ) ≤ ⌊q⌋ := Int.le_floor.mpr (by exact_mod_cast h)
  unfold pyRound
  dsimp only
  split_ifs <;> omega

theorem le_pyRoundN_of_le (n : ℕ) (q : ℚ) (h : (n : ℚ) ≤ q) :
    n ≤ pyRoundN q := by
  have h2 := le_pyRound_of_le n q h
  unfold pyRoundN
  omega

theorem pyRoundN_cast_mul_one (n : ℕ) : pyRoundN ((n : ℚ) * 1) = n := by
  rw [mul_one]
  unfold pyRoundN pyRound
  rw [Int.floor_natCast]
  norm_num

theorem flipStage_shapes (rng : ℕ → ℚ) (k : ℕ) (p : Arr4 ℚ × Arr4 ℤ) :
    (flipStage rng k p).1.shape = p.1.shape ∧
    (flipStage rng k p).2.shape = p.2.shape := by
  unfold flipStage
  split_ifs <;> simp [npFlipAx1, npFlipAx2, npFlipAx3]

theorem rotateStage_shapes (Rq : Resampler ℚ) (Rz : Resampler ℤ)
    (rng : ℕ → ℚ) (k : ℕ) (p : Arr4 ℚ × Arr4 ℤ) :
    (rotateStage Rq Rz rng k p).1.1.shape = p.1.shape ∧
    (rotateStage Rq Rz rng k p).1.2.shape = p.2.shape := by
  unfold rotateStage
  split_ifs <;> simp [scipyRotate]

theorem crop4_shape_of_target {α : Type} (t : Arr4 α)
    (h : t.shape = (1, 256, 256, 128)) :
    (crop4 t).shape = (1, 256, 256, 128) := by
  simp [crop4, npSlice4, h]

theorem crop4_zoom_shape {α : Type} (R : Resampler α) (t : Arr4 α) (z : ℚ)
    (o : ℕ) (hz : 1 ≤ z) (ht : t.shape = (1, 256, 256, 128)) :
    (crop4 (scipyZoom R t z o)).shape = (1, 256, 256, 128) := by
  have h256 : (256 : ℕ) ≤ pyRoundN ((256 : ℚ) * z) :=
    le_pyRoundN_of_le 256 _ (by push_cast; nlinarith)
  have h128 : (128 : ℕ) ≤ pyRoundN ((128 : ℚ) * z) :=
    le_pyRoundN_of_le 128 _ (by push_cast; nlinarith)
  have h1 : pyRoundN (1 : ℚ) = 1 := by
    have h2 := pyRoundN_cast_mul_one 1
    norm_num at h2
    exact h2
  simp [crop4, npSlice4, scipyZoom, zoomShape, ht, h1,
    min_eq_right h256, min_eq_right h128]

/-- C6 (amended): on `(1, 256, 256, 128)` inputs, `apply_augmentation`
returns `(1, 256, 256, 128)` shapes for every draw combination — any flips,
any rotation angle — provided the draw the zoom step would use yields a
factor ≥ 1 (the stream position of that draw is `k+5+1` when the rotation
branch is taken and `k+4+1` otherwise).  For factors below 1 the claim
fails: see the counterexample at factor 0.9. -/
theorem aug_preserves_shape_for_zoom_ge_one
    (Rq : Resampler ℚ) (Rz : Resampler ℤ) (rng : ℕ → ℚ) (k : ℕ)
    (img : Arr4 ℚ) (msk : Arr4 ℤ)
    (hI : img.shape = (1, 256, 256, 128))
    (hM : msk.shape = (1, 256, 256, 128))
    (hz1 : 1 ≤ uniform (9/10) (11/10)
      (rng ((if 1/2 < rng (k+3) then k+5 else k+4) + 1))) :
    (apply_augmentation Rq Rz rng k img msk).img.shape = (1, 256, 256, 128) ∧
    (apply_augmentation Rq Rz rng k img msk).msk.shape = (1, 256, 256, 128) := by
  obtain ⟨hf1, hf2⟩ := flipStage_shapes rng k (img, msk)
  simp only at hf1 hf2
  rw [hI] at hf1
  rw [hM] at hf2
  unfold apply_augmentation
  by_cases hrd : 1/2 < rng (k+3)
  · rw [if_pos hrd] at hz1
    simp only [rotateStage_take Rq Rz rng (k+3) _ hrd]
    by_cases hzd : 1/2 < rng (k+3+2)
    · simp only [zoomStage_take Rq Rz rng (k+3+2) _ hzd]
      constructor
      · exact crop4_zoom_shape Rq _ _ _ hz1 (by simp [scipyRotate, hf1])
      · exact crop4_zoom_shape Rz _ _ _ hz1 (by simp [scipyRotate, hf2])
    · simp only [zoomStage_skip Rq Rz rng (k+3+2) _ hzd]
      constructor
      · exact crop4_shape_of_target _ (by simp [scipyRotate, hf1])
      · exact crop4_shape_of_target _ (by simp [scipyRotate, hf2])
  · rw [if_neg hrd] at hz1
    simp only [rotateStage_skip Rq Rz rng (k+3) _ hrd]
    by_cases hzd : 1/2 < rng (k+3+1)
    · simp only [zoomStage_take Rq Rz rng (k+3+1) _ hzd]
      constructor
      · exact crop4_zoom_shape Rq _ _ _ hz1 hf1
      · exact crop4_zoom_shape Rz _ _ _ hz1 hf2
    · simp only [zoomStage_skip Rq Rz rng (k+3+1) _ hzd]
      constructor
      · exact crop4_shape_of_target _ hf1
      · exact crop4_shape_of_target _ hf2

theorem flipStage_skip (rng : ℕ → ℚ) (k : ℕ) (p : Arr4 ℚ × Arr4 ℤ)
    (h0 : ¬ 1/2 < rng k) (h1 : ¬ 1/2 < rng (k+1)) (h2 : ¬ 1/2 < rng (k+2)) :
    flipStage rng k p = p := by
  simp only [flipStage, if_neg h0, if_neg h1, if_neg h2]

/-- C6 counterexample: with only the zoom branch taken and factor draw 0
(zoom factor `0.9`, inside the claimed range `[0.9, 1.1]`), the augmented
shapes are `(1, 230, 230, 115)`, not `(1, 256, 256, 128)`: the final crop
only truncates and cannot restore the zoom-shrunken extent. -/
theorem aug_zoom_0_9_shrinks_shape :
    uniform (9/10) (11/10) (rngZoomEx 5) = 9/10 ∧
    (apply_augmentation rsq4 rsz4 rngZoomEx 0 img0ex msk0ex).img.shape =
      (1, 230, 230, 115) ∧
    (apply_augmentation rsq4 rsz4 rngZoomEx 0 img0ex msk0ex).msk.shape =
      (1, 230, 230, 115) ∧
    (apply_augmentation rsq4 rsz4 rngZoomEx 0 img0ex msk0ex).img.shape ≠
      (1, 256, 256, 128) := by
  have hz : uniform (9/10) (11/10) (rngZoomEx (0+4+1)) = 9/10 := by
    norm_num [uniform, rngZoomEx]
  have h256 : pyRoundN ((256 : ℚ) * (9/10)) = 230 := by
    norm_num [pyRoundN, pyRound]
    rfl
  have h128 : pyRoundN ((128 : ℚ) * (9/10)) = 115 := by
    norm_num [pyRoundN, pyRound]
    rfl
  have h1a : pyRoundN (1 : ℚ) = 1 := by
    norm_num [pyRoundN, pyRound]
  have hshape :
      (apply_augmentation rsq4 rsz4 rngZoomEx 0 img0ex msk0ex).img.shape =
        (1, 230, 230, 115) ∧
      (apply_augmentation rsq4 rsz4 rngZoomEx 0 img0ex msk0ex).msk.shape =
        (1, 230, 230, 115) := by
    unfold apply_augmentation
    simp only [flipStage_skip rngZoomEx 0 (img0ex, msk0ex)
        (by norm_num [rngZoomEx]) (by norm_num [rngZoomEx])
        (by norm_num [rngZoomEx]),
      rotateStage_skip rsq4 rsz4 rngZoomEx (0+3) _ (by norm_num [rngZoomEx])]
    simp only [zoomStage_take rsq4 rsz4 rngZoomEx (0+3+1) _
      (by norm_num [rngZoomEx])]
    rw [show (0+3+1+1 : ℕ) = 5 from rfl] at *
    constructor
    · simp [crop4, npSlice4, scipyZoom, zoomShape, img0ex, hz, h256, h128, h1a]
    · simp [crop4, npSlice4, scipyZoom, zoomShape, msk0ex, hz, h256, h128, h1a]
  exact ⟨by norm_num [uniform, rngZoomEx], hshape.1, hshape.2, by
    rw [hshape.1]; simp⟩

/-- Witness for C6 (amended): the constant-1 stream takes every branch
(all flips, rotation at angle 30, zoom at factor 1.1 ≥ 1); shapes are
preserved. -/
theorem aug_preserves_shape_for_zoom_ge_one_w :
    (apply_augmentation rsq4 rsz4 (fun _ => 1) 0 img0ex msk0ex).img.shape =
      (1, 256, 256, 128) ∧
    (apply_augmentation rsq4 rsz4 (fun _ => 1) 0 img0ex msk0ex).msk.shape =
      (1, 256, 256, 128) :=
  aug_preserves_shape_for_zoom_ge_one rsq4 rsz4 (fun _ => 1) 0 img0ex msk0ex
    rfl rfl (by norm_num [uniform])
